import Mathlib

/-!
Verification of the harhar package (HAR logging for Go net/http applications).

The development shallowly embeds the current sources of the repository:
`structs.go` (the HAR data model), `harhar.go` (the `Recorder`, its
client-side `RoundTrip`, `makeRequest` and `makeResponse`), and `server.go`
(the server-side `ServeHTTP` and `HARResponseWriter`).

Modelling conventions:
- Go byte slices and strings are modelled as `List Char` / `String`; the
  conversion `string(b)` is `String.mk`.
- Go `io.ReadCloser` bodies are modelled by `BodyStream`: the full underlying
  byte sequence, a read position, and a flag marking a stream whose
  `io.ReadAll` fails (an unreadable body).
- `http.Header` and `url.Values` (Go maps from string to string slice) are
  modelled as association lists; Go's nondeterministic map iteration order
  is replaced by list order.
- Millisecond timestamps from `time.Now()` are explicit `Int` parameters;
  `time.Since(a)` at a clock reading `b` is `b - a`.
- A Go panic (out-of-bounds index inside a trace callback) is modelled by an
  `Option` result, `none` meaning the panic.
-/

namespace Harhar

/-! ## HAR data model (structs.go) -/

/-- NameValuePair is a name and value, paired (structs.go). -/
structure NameValuePair where
  name : String := ""
  value : String := ""
deriving DecidableEq, Repr, Inhabited

/-- PostNameValuePair contains the description and content of a POSTed name
and value pair, possibly a file (structs.go). -/
structure PostNameValuePair where
  name : String := ""
  value : String := ""
  fileName : String := ""
  contentType : String := ""
deriving DecidableEq, Repr, Inhabited

/-- Cookie describes the cookie information for requests and responses
(structs.go). -/
structure Cookie where
  name : String := ""
  value : String := ""
  path : String := ""
  domain : String := ""
  expires : String := ""
  secure : Bool := false
  httpOnly : Bool := false
deriving DecidableEq, Repr, Inhabited

/-- The postData sub-struct of a HAR Request (structs.go): MIME type plus
either parsed Params or raw text Content. -/
structure PostData where
  mimeType : String := ""
  params : List PostNameValuePair := []
  content : String := ""
deriving DecidableEq, Repr, Inhabited

/-- Request contains the request description and content (structs.go). -/
structure Request where
  method : String := ""
  url : String := ""
  httpVersion : String := ""
  cookies : List Cookie := []
  headers : List NameValuePair := []
  queryParams : List NameValuePair := []
  body : PostData := {}
  headersSize : Int := 0
  bodySize : Int := 0
  comment : String := ""
deriving DecidableEq, Repr, Inhabited

/-- The content sub-struct of a HAR Response (structs.go). -/
structure ResponseContent where
  size : Int := 0
  compression : Int := 0
  mimeType : String := ""
  content : String := ""
  encoding : String := ""
  comment : String := ""
deriving DecidableEq, Repr, Inhabited

/-- Response contains the response description and content (structs.go). -/
structure Response where
  statusCode : Int := 0
  statusText : String := ""
  httpVersion : String := ""
  redirectURL : String := ""
  cookies : List Cookie := []
  headers : List NameValuePair := []
  body : ResponseContent := {}
  headersSize : Int := 0
  bodySize : Int := 0
  comment : String := ""
deriving DecidableEq, Repr, Inhabited

/-- The timings sub-struct of an Entry (structs.go). Zero values are the Go
zero value 0; the code writes -1 for phases it declares unmeasured. -/
structure Timings where
  send : Int := 0
  wait : Int := 0
  receive : Int := 0
  blocked : Int := 0
  dns : Int := 0
  connect : Int := 0
  ssl : Int := 0
  comment : String := ""
deriving DecidableEq, Repr, Inhabited

/-- Entry describes one request-response pair and associated information
(structs.go). The Cache sub-struct (always zero in the recorder code) is
omitted. -/
structure Entry where
  pageRef : String := ""
  start : String := ""
  time : Int := 0
  request : Request := {}
  response : Response := {}
  timings : Timings := {}
  serverIP : String := ""
  connection : String := ""
  comment : String := ""
deriving DecidableEq, Repr, Inhabited

/-- Creator describes the source of the logged requests/responses
(structs.go). -/
structure Creator where
  name : String := ""
  version : String := ""
  comment : String := ""
deriving DecidableEq, Repr, Inhabited

/-- Log represents a set of HTTP Request/Response Entries (structs.go). -/
structure Log where
  version : String := ""
  creator : Creator := {}
  entries : List Entry := []
  comment : String := ""
deriving DecidableEq, Repr, Inhabited

/-- HAR is the root document (structs.go). -/
structure HAR where
  log : Log := {}
deriving DecidableEq, Repr, Inhabited

/-- Recorder wraps an upstream RoundTripper/Handler and owns the HAR log
(harhar.go). The wrapped transport and handler are passed explicitly to the
functions modelling `RoundTrip` and `ServeHTTP`. -/
structure Recorder where
  har : HAR := {}
deriving DecidableEq, Repr, Inhabited

/-! ## Go-side model: body streams, headers, requests, responses -/

/-- Model of an `io.ReadCloser` body: the underlying bytes, the current read
position, and a flag marking a stream on which `io.ReadAll` fails. -/
structure BodyStream where
  data : List Char := []
  pos : Nat := 0
  readErr : Bool := false
deriving DecidableEq, Repr, Inhabited

/-- The byte sequence a consumer reading the stream to its end would observe. -/
def BodyStream.remaining (bs : BodyStream) : List Char :=
  bs.data.drop bs.pos

/-- Errors produced by the embedded Go code paths. -/
inductive GoError where
  | readError
  | notMultipart
  | missingBoundary
  | missingFormBody
  | invalidSemicolon
  | invalidEscape
  | multipartMalformed
deriving DecidableEq, Repr, Inhabited

/-- Model of `io.ReadAll`: reads everything from the current position and
returns the drained stream, or fails on an unreadable stream. -/
def BodyStream.readAll (bs : BodyStream) : Except GoError (List Char × BodyStream) :=
  if bs.readErr then .error .readError
  else .ok (bs.data.drop bs.pos, { bs with pos := bs.data.length })

/-- Model of `Seek(0, io.SeekStart)` on a `bytes.Reader`. -/
def BodyStream.seekStart (bs : BodyStream) : BodyStream :=
  { bs with pos := 0 }

/-- Association-list model of `http.Header` / `url.Values`
(map from string to list of strings; list order stands in for Go's map
iteration order). -/
abbrev Values := List (String × List String)

/-- Model of `http.Header.Get` / `url.Values.Get`: first value for the key,
or the empty string (keys are taken as already canonical). -/
def headerGet (h : Values) (key : String) : String :=
  match h.find? (fun p => p.1 = key) with
  | some p => p.2.headD ""
  | none => ""

/-- Model of `http.Header.Add` / appending to a `url.Values` entry. -/
def mapAppend (h : Values) (key v : String) : Values :=
  if h.any (fun p => p.1 = key) then
    h.map (fun p => if p.1 = key then (p.1, p.2 ++ [v]) else p)
  else h ++ [(key, [v])]

/-- Model of `http.Header.Set`: replaces all values of the key by the single
given value. -/
def setValue (h : Values) (key v : String) : Values :=
  if h.any (fun p => p.1 = key) then
    h.map (fun p => if p.1 = key then (key, [v]) else p)
  else h ++ [(key, [v])]

/-- The nested range loop over a header/values map appending one
NameValuePair per value (makeRequest / makeResponse). -/
def flattenPairs (h : Values) : List NameValuePair :=
  h.foldl (fun acc p => acc ++ p.2.map (fun v => NameValuePair.mk p.1 v)) []

/-- Byte length of `http.Header.Write` output: one "Key: value CRLF" line per
value (4 bytes of punctuation per line). -/
def headerWriteLen (h : Values) : Nat :=
  h.foldl (fun acc p => acc + p.2.foldl (fun a v => a + (p.1.length + v.length + 4)) 0) 0

/-- Model of `net/url.URL` as used here: its rendered string
(`URL.String()`) and its raw query string, from which `URL.Query()` and
`ParseForm`'s Form merge parse. -/
structure URL where
  str : String := ""
  rawQuery : String := ""
deriving DecidableEq, Repr, Inhabited

/-- Model of a Go `net/http.Cookie` as it reaches `makeRequest` /
`makeResponse`; `Expires.Format(time.RFC3339Nano)` is carried as the
pre-formatted `expires` string. -/
structure GoCookie where
  name : String := ""
  value : String := ""
  path : String := ""
  domain : String := ""
  expires : String := ""
  secure : Bool := false
  httpOnly : Bool := false
deriving DecidableEq, Repr, Inhabited

/-- A parsed multipart file part (`mime/multipart.FileHeader`); the file
content replaces the `Open`/`ReadAll` pair, which cannot fail on the
in-memory form. -/
structure FileHeader where
  filename : String := ""
  header : Values := []
  content : String := ""
deriving DecidableEq, Repr, Inhabited

/-- A parsed multipart form (`mime/multipart.Form`). -/
structure MultipartForm where
  value : Values := []
  file : List (String × List FileHeader) := []
deriving DecidableEq, Repr, Inhabited

/-- Model of `net/http.Request` restricted to the fields the recorder reads:
method, URL, protocol, headers, cookies (carried pre-parsed from the Cookie
header, as `Request.Cookies()` returns them), the body stream, and the
`PostForm` / `MultipartForm` fields populated by the form parsers. -/
structure HttpRequest where
  method : String := ""
  url : URL := {}
  proto : String := ""
  header : Values := []
  cookies : List GoCookie := []
  body : Option BodyStream := none
  postForm : Option Values := none
  multipartForm : Option MultipartForm := none
deriving DecidableEq, Repr, Inhabited

/-- Model of `net/http.Response` restricted to the fields the recorder reads.
Client responses always carry a non-nil body, so `body` is not optional.
Cookies are carried pre-parsed from the Set-Cookie headers, as
`Response.Cookies()` returns them. -/
structure HttpResponse where
  statusCode : Int := 0
  proto : String := ""
  header : Values := []
  cookies : List GoCookie := []
  body : BodyStream := {}
deriving DecidableEq, Repr, Inhabited

/-- The cookie conversion loop shared by makeRequest and makeResponse. -/
def toHarCookie (c : GoCookie) : Cookie :=
  { name := c.name, path := c.path, value := c.value, domain := c.domain,
    expires := c.expires, httpOnly := c.httpOnly, secure := c.secure }

/-- Abstract stand-in for `time.Time.Format(time.RFC3339Nano)` on the model's
integer millisecond timestamps. -/
def formatRFC3339Nano (t : Int) : String :=
  toString t

/-- Model of `net/http.StatusText` restricted to common codes; unknown codes
yield the empty string, as in the standard library. -/
def statusText (code : Int) : String :=
  if code = 200 then "OK"
  else if code = 201 then "Created"
  else if code = 204 then "No Content"
  else if code = 301 then "Moved Permanently"
  else if code = 302 then "Found"
  else if code = 304 then "Not Modified"
  else if code = 400 then "Bad Request"
  else if code = 401 then "Unauthorized"
  else if code = 403 then "Forbidden"
  else if code = 404 then "Not Found"
  else if code = 405 then "Method Not Allowed"
  else if code = 500 then "Internal Server Error"
  else if code = 502 then "Bad Gateway"
  else if code = 503 then "Service Unavailable"
  else ""

/-! ## Standard-library parsers used by makeRequest

The recorder delegates form decoding to `net/http.Request.ParseForm` and
`ParseMultipartForm`, which rest on `net/url.ParseQuery` and
`mime.ParseMediaType` / `mime/multipart`. These are embedded here from the
standard library's documented behaviour, since `src/` holds only the
repository code. -/

/-- Split a character list on a separator character (the segment structure
that iterating `strings.Cut(query, sep)` produces). -/
def splitOnChar (c : Char) : List Char → List (List Char)
  | [] => [[]]
  | x :: xs =>
    if x = c then [] :: splitOnChar c xs
    else
      match splitOnChar c xs with
      | [] => [[x]]
      | y :: ys => (x :: y) :: ys

/-- Model of `strings.Cut` at a character: the part before the first
occurrence and the part after it (empty when the character is absent, as Go's
`Cut` leaves `after` empty when not found). -/
def cutChar (c : Char) : List Char → List Char × List Char
  | [] => ([], [])
  | x :: xs =>
    if x = c then ([], xs)
    else
      let p := cutChar c xs
      (x :: p.1, p.2)

/-- Hexadecimal digit value, or `none` for a non-hex character. -/
def hexVal (c : Char) : Option Nat :=
  if '0' ≤ c ∧ c ≤ '9' then some (c.toNat - '0'.toNat)
  else if 'a' ≤ c ∧ c ≤ 'f' then some (c.toNat - 'a'.toNat + 10)
  else if 'A' ≤ c ∧ c ≤ 'F' then some (c.toNat - 'A'.toNat + 10)
  else none

/-- Model of `net/url.QueryUnescape`: percent-decoding with `+` mapped to a
space; `none` on an invalid or truncated escape. -/
def queryUnescape : List Char → Option (List Char)
  | [] => some []
  | '%' :: a :: b :: rest =>
    match hexVal a, hexVal b with
    | some ha, some hb =>
      match queryUnescape rest with
      | some r => some (Char.ofNat (ha * 16 + hb) :: r)
      | none => none
    | _, _ => none
  | '%' :: _ => none
  | '+' :: rest =>
    match queryUnescape rest with
    | some r => some (' ' :: r)
    | none => none
  | c :: rest =>
    match queryUnescape rest with
    | some r => some (c :: r)
    | none => none

/-- The main loop of `net/url.ParseQuery` over the `&`-separated segments:
a segment containing `;` is skipped and sets the error; otherwise the
segment is cut at the first `=` and key and value are percent-decoded, a
decode failure skipping the pair and recording the first error. The loop
keeps filling the map after an error, exactly as Go does, and the map is
returned alongside the error. -/
def parseQueryList : List (List Char) → Values → Option GoError → Values × Option GoError
  | [], m, err => (m, err)
  | seg :: rest, m, err =>
    if seg.any (fun c => c = ';') then
      parseQueryList rest m (some .invalidSemicolon)
    else
      let p := cutChar '=' seg
      match queryUnescape p.1, queryUnescape p.2 with
      | some k, some v => parseQueryList rest (mapAppend m (String.mk k) (String.mk v)) err
      | _, _ => parseQueryList rest m (if err.isSome then err else some .invalidEscape)

/-- Model of `net/url.ParseQuery` (empty segments are skipped, as the loop's
`if key == "" continue` does): the decoded values and the first error. -/
def parseQuery (data : List Char) : Values × Option GoError :=
  parseQueryList ((splitOnChar '&' data).filter (fun s => s ≠ [])) [] none

/-- Model of `URL.Query()`: the best-effort parse of the raw query, errors
discarded. -/
def URL.queryValues (u : URL) : Values :=
  (parseQuery u.rawQuery.toList).1

/-- Trim leading and trailing spaces (the whitespace handling of
`mime.ParseMediaType` restricted to the space character). -/
def trimSpaceList (l : List Char) : List Char :=
  ((l.dropWhile (fun c => c = ' ')).reverse.dropWhile (fun c => c = ' ')).reverse

/-- Strip one layer of surrounding double quotes from a parameter value. -/
def stripQuotes (l : List Char) : List Char :=
  match l with
  | '"' :: rest =>
    if rest.getLast? = some '"' then rest.dropLast else l
  | _ => l

/-- Model of `mime.ParseMediaType`, adequate for the media type and the
`boundary` parameter: the part before the first `;` (lower-cased, trimmed)
and the `key=value` parameters after it. -/
def parseMediaType (ct : String) : String × List (String × String) :=
  match splitOnChar ';' ct.toList with
  | [] => ("", [])
  | m :: rest =>
    (String.mk ((trimSpaceList m).map Char.toLower),
     rest.filterMap (fun seg =>
       let p := cutChar '=' (trimSpaceList seg)
       if p.1 = [] then none
       else some (String.mk (p.1.map Char.toLower), String.mk (stripQuotes p.2))))

/-- Look up a media-type parameter. -/
def lookupParam (ps : List (String × String)) (key : String) : Option String :=
  (ps.find? (fun p => p.1 = key)).map (fun p => p.2)

/-- Parse the header block of one multipart part ("Key: value" lines). -/
def parsePartHeaders (lines : List String) : Values :=
  lines.foldl (fun acc line =>
    match line.splitOn ": " with
    | [k, v] => mapAppend acc k v
    | _ => acc) []

/-- Add one multipart part (the text between two boundary delimiters) to the
form: a part with a `filename` in its Content-Disposition becomes a file
entry, otherwise a value entry; a part without a `name` is malformed. -/
def multipartAddPart (form : MultipartForm) (part : String) : Option MultipartForm :=
  let part := if part.startsWith "\r\n" then part.drop 2 else part
  match part.splitOn "\r\n\r\n" with
  | [] => none
  | hdr :: bodyParts =>
    let headers := parsePartHeaders (hdr.splitOn "\r\n")
    let body := (String.intercalate "\r\n\r\n" bodyParts).dropRight 2
    let dp := parseMediaType (headerGet headers "Content-Disposition")
    match lookupParam dp.2 "name" with
    | none => none
    | some nm =>
      match lookupParam dp.2 "filename" with
      | some fn =>
        some { form with file :=
          if form.file.any (fun p => p.1 = nm) then
            form.file.map (fun p => if p.1 = nm
              then (p.1, p.2 ++ [{ filename := fn, header := headers, content := body }])
              else p)
          else form.file ++ [(nm, [{ filename := fn, header := headers, content := body }])] }
      | none => some { form with value := mapAppend form.value nm body }

/-- Model of `mime/multipart.Reader.ReadForm` on an in-memory body: split the
payload at the `--boundary` delimiters, require a closing `--boundary--`
terminator, and collect the parts. A body without any delimiter, or without
the terminator, or with a malformed part, is an error. -/
def parseMultipartBody (boundary : String) (data : List Char) : Except GoError MultipartForm :=
  let frags := (String.mk data).splitOn ("--" ++ boundary)
  match frags with
  | [] => .error .multipartMalformed
  | [_] => .error .multipartMalformed
  | _preamble :: parts =>
    if (parts.getLast?.map (fun s => s.startsWith "--")).getD false then
      parts.dropLast.foldlM (fun f p =>
        match multipartAddPart f p with
        | some f2 => Except.ok f2
        | none => Except.error GoError.multipartMalformed) {}
    else .error .multipartMalformed

/-- Model of `net/http.Request.ParseForm`. The body step (`parsePostForm`)
runs only when `PostForm` is still nil and the method is POST, PUT or PATCH:
for the `application/x-www-form-urlencoded` media type it drains the body
and decodes it with `url.ParseQuery`, keeping the partial map on error;
otherwise the body is untouched and `PostForm` becomes the empty map. The
Form step then parses the URL's raw query — the `Form` merge itself is
unused by this repository, but its parse error is reported when the body
step produced none (`if err == nil { err = e }`), and makeRequest observes
it. On a body read error the stream's consumed position is unknowable and
the model leaves it unchanged. -/
def parseForm (hr : HttpRequest) : HttpRequest × Option GoError :=
  let step1 : HttpRequest × Option GoError :=
    if hr.postForm = none then
      if hr.method = "POST" ∨ hr.method = "PUT" ∨ hr.method = "PATCH" then
        let ct0 := headerGet hr.header "Content-Type"
        let ct := (parseMediaType (if ct0 = "" then "application/octet-stream" else ct0)).1
        if ct = "application/x-www-form-urlencoded" then
          match hr.body with
          | none => ({ hr with postForm := some [] }, some .missingFormBody)
          | some bs =>
            match bs.readAll with
            | .error e => ({ hr with postForm := some [] }, some e)
            | .ok (data, bs2) =>
              let pq := parseQuery data
              ({ hr with body := some bs2, postForm := some pq.1 }, pq.2)
        else ({ hr with postForm := some [] }, none)
      else ({ hr with postForm := some [] }, none)
    else (hr, none)
  let e2 := (parseQuery step1.1.url.rawQuery.toList).2
  (step1.1, if step1.2.isSome then step1.2 else e2)

/-- Model of `net/http.Request.ParseMultipartForm`: it first runs the nested
`ParseForm` (whose error is deferred), returns nil when a multipart form was
already parsed, then builds the multipart reader — the Content-Type must
carry the `multipart/form-data` media type and a `boundary` parameter
(otherwise `ErrNotMultipart` / `ErrMissingBoundary`, returned immediately,
before the body is read) — drains and parses the body, merges the value
parts into `PostForm`, and finally reports the deferred `ParseForm` error.
The `maxMemory` spill-to-disk threshold has no effect on the in-memory
model. -/
def parseMultipartForm (hr : HttpRequest) (_maxMemory : Nat) : HttpRequest × Option GoError :=
  let pf := parseForm hr
  let hr1 := pf.1
  let parseFormErr := pf.2
  if hr1.multipartForm.isSome then (hr1, none)
  else
    let mt := parseMediaType (headerGet hr1.header "Content-Type")
    if mt.1 ≠ "multipart/form-data" then (hr1, some .notMultipart)
    else
      match lookupParam mt.2 "boundary" with
      | none => (hr1, some .missingBoundary)
      | some boundary =>
        match hr1.body with
        | none => (hr1, some .missingFormBody)
        | some bs =>
          match bs.readAll with
          | .error e => (hr1, some e)
          | .ok (data, bs2) =>
            match parseMultipartBody boundary data with
            | .error e => ({ hr1 with body := some bs2 }, some e)
            | .ok form =>
              let mergedPostForm := form.value.foldl
                (fun m p => p.2.foldl (fun m2 v => mapAppend m2 p.1 v) m)
                (hr1.postForm.getD [])
              let hr2 := { hr1 with body := some bs2, multipartForm := some form }
              ({ hr2 with postForm := some mergedPostForm }, parseFormErr)

/-! ## makeRequest / makeResponse (harhar.go) -/

/-- Result of `makeRequest`: the HAR Request, the (mutated) http request
whose body stream was replaced, and the Go error value. -/
structure MakeRequestResult where
  har : Request
  req : HttpRequest
  err : Option GoError
deriving DecidableEq, Repr, Inhabited

/-- Embedding of `makeRequest` (harhar.go): converts an `http.Request` to a
HAR Request, draining the body and replacing it with a fresh reader over the
captured bytes, then classifying the body by its declared content type. -/
def makeRequest (hr : HttpRequest) : MakeRequestResult :=
  let r : Request :=
    { method := hr.method, url := hr.url.str, httpVersion := hr.proto,
      headersSize := -1, bodySize := -1 }
  let r := { r with headersSize := (headerWriteLen hr.header : Int) + 4 }
  let r := { r with headers := flattenPairs hr.header }
  let r := { r with cookies := hr.cookies.map toHarCookie }
  let r := { r with queryParams := flattenPairs hr.url.queryValues }
  match hr.body with
  | none => { har := { r with bodySize := 0 }, req := hr, err := none }
  | some body =>
    match body.readAll with
    | .error e => { har := r, req := hr, err := some e }
    | .ok (bodyData, _) =>
      let bodbuf : BodyStream := { data := bodyData, pos := 0, readErr := false }
      let hr := { hr with body := some bodbuf }
      let r := { r with bodySize := (bodyData.length : Int) }
      let mt0 := headerGet hr.header "Content-Type"
      let mt := if mt0 = "" then "application/octet-stream" else mt0
      let r := { r with body := { r.body with mimeType := mt } }
      if mt = "form-data" ∨ mt = "multipart/form-data" then
        match parseMultipartForm hr (32 * 1048576) with
        | (hr2, some e) => { har := r, req := hr2, err := some e }
        | (hr2, none) =>
          let hr3 := { hr2 with body := hr2.body.map BodyStream.seekStart }
          let form := hr3.multipartForm.getD {}
          let fileParams := form.file.foldl (fun acc p =>
            acc ++ p.2.map (fun fh =>
              PostNameValuePair.mk p.1 fh.content fh.filename
                (headerGet fh.header "Content-Type"))) []
          let valParams := form.value.foldl (fun acc p =>
            acc ++ p.2.map (fun v => PostNameValuePair.mk p.1 v "" "")) []
          { har := { r with body :=
              { r.body with params := r.body.params ++ fileParams ++ valParams } },
            req := hr3, err := none }
      else if mt = "application/x-www-form-urlencoded" then
        match parseForm hr with
        | (hr2, some e) => { har := r, req := hr2, err := some e }
        | (hr2, none) =>
          let hr3 := { hr2 with body := hr2.body.map BodyStream.seekStart }
          let valParams := (hr3.postForm.getD []).foldl (fun acc p =>
            acc ++ p.2.map (fun v => PostNameValuePair.mk p.1 v "" "")) []
          { har := { r with body :=
              { r.body with params := r.body.params ++ valParams } },
            req := hr3, err := none }
      else
        { har := { r with body := { r.body with content := String.mk bodyData } },
          req := hr, err := none }

/-- Result of `makeResponse`: the HAR Response, the (mutated) http response
whose body stream was replaced, and the Go error value. -/
structure MakeResponseResult where
  har : Response
  resp : HttpResponse
  err : Option GoError
deriving DecidableEq, Repr, Inhabited

/-- Embedding of `makeResponse` (harhar.go): converts an `http.Response` to a
HAR Response, draining the body and replacing it with a fresh reader over the
captured bytes. `Response.Location()` is the Location header when present
(URL parsing and relative resolution modelled as the identity). -/
def makeResponse (hr : HttpResponse) : MakeResponseResult :=
  let r : Response :=
    { statusCode := hr.statusCode, statusText := statusText hr.statusCode,
      httpVersion := hr.proto, headersSize := -1, bodySize := -1 }
  let r := { r with headersSize := (headerWriteLen hr.header : Int) + 4 }
  let r := { r with headers := flattenPairs hr.header }
  let loc := headerGet hr.header "Location"
  let r := if loc = "" then r else { r with redirectURL := loc }
  let r := { r with cookies := hr.cookies.map toHarCookie }
  match hr.body.readAll with
  | .error e => { har := r, resp := hr, err := some e }
  | .ok (bodyData, _) =>
    let hr := { hr with body := { data := bodyData, pos := 0, readErr := false } }
    let r := { r with body := { r.body with
      content := String.mk bodyData, compression := 0,
      size := (bodyData.length : Int) } }
    let r := { r with bodySize := r.body.size }
    let mt0 := headerGet hr.header "Content-Type"
    let mt := if mt0 = "" then "application/octet-stream" else mt0
    let r := { r with body := { r.body with mimeType := mt } }
    { har := r, resp := hr, err := none }

/-! ## Client-side RoundTrip (harhar.go) -/

/-- The clock readings RoundTrip takes directly: `now` (line "now :="),
`startTime` just before the wrapped call, and the two `time.Now()` reads when
computing `Timings.Receive` and `Time` after the call. -/
structure RoundTripClock where
  t0 : Int := 0
  tStart : Int := 0
  tRecv : Int := 0
  tTime : Int := 0
deriving DecidableEq, Repr, Inhabited

/-- The `httptrace.ClientTrace` callbacks that fired during the wrapped call:
for each, the clock reading at which it fired (`none` when the transport
never invoked it, e.g. on a reused connection), plus the DNS result list
(addresses already rendered by `String()`). -/
structure ClientTraceRun where
  getConn : Option Int := none
  gotConn : Option Int := none
  dnsStart : Option Int := none
  dnsDone : Option Int := none
  dnsAddrs : List String := []
  connectStart : Option Int := none
  connectDone : Option Int := none
  tlsStart : Option Int := none
  tlsDone : Option Int := none
  wroteRequest : Option Int := none
  gotFirstByte : Option Int := none
deriving DecidableEq, Repr, Inhabited

/-- The assignment in the DNSDone callback:
`ent.ServerIP = dnsInfo.Addrs[0].String()`. The unguarded index panics on an
empty address list; the panic is `none`. -/
def dnsDoneServerIP (addrs : List String) : Option String :=
  addrs[0]?

/-- The Timings fields written by the trace callbacks (all but Receive,
which RoundTrip assigns after the call). Each phase start falls back to the
initial `now` reading when its start callback never fired. -/
def traceTimings (t0 : Int) (tr : ClientTraceRun) : Timings :=
  let connWaitStart := tr.getConn.getD t0
  let dnsStartT := tr.dnsStart.getD t0
  let connStart := tr.connectStart.getD t0
  let tlsStartT := tr.tlsStart.getD t0
  let sendStart := tr.connectDone.getD t0
  let waitStart := tr.wroteRequest.getD t0
  { blocked := match tr.gotConn with | some t => t - connWaitStart | none => 0
    dns := match tr.dnsDone with | some t => t - dnsStartT | none => 0
    connect := match tr.connectDone with | some t => t - connStart | none => 0
    ssl := match tr.tlsDone with | some t => t - tlsStartT | none => 0
    send := match tr.wroteRequest with | some t => t - sendStart | none => 0
    wait := match tr.gotFirstByte with | some t => t - waitStart | none => 0
    receive := 0 }

/-- Outcome of the wrapped transport's RoundTrip: per the
`http.RoundTripper` contract, a non-nil error (with a possibly nil response)
or a non-nil response. -/
inductive TransportResult where
  | failure (resp : Option HttpResponse) (err : GoError)
  | success (resp : HttpResponse)
deriving DecidableEq, Repr, Inhabited

/-- The append to the shared log, `c.HAR.Log.Entries = append(..., ent)`. -/
def Recorder.appendEntry (rec : Recorder) (ent : Entry) : Recorder :=
  { rec with har := { rec.har with log :=
      { rec.har.log with entries := rec.har.log.entries ++ [ent] } } }

/-- Embedding of `Recorder.RoundTrip` (harhar.go). Parameters beyond the
recorder and request describe the environment: the clock readings, the trace
callbacks the transport fired, and the wrapped transport's result. Returns
the updated recorder and the `(resp, err)` pair handed to the caller; `none`
models a panic inside a trace callback. -/
def Recorder.roundTrip (rec : Recorder) (req : HttpRequest) (ck : RoundTripClock)
    (tr : ClientTraceRun) (res : TransportResult) :
    Option (Recorder × Option HttpResponse × Option GoError) :=
  let mk := makeRequest req
  match mk.err with
  | some e => some (rec, none, some e)
  | none =>
    let sip? : Option String :=
      match tr.dnsDone with
      | none => some ""
      | some _ => dnsDoneServerIP tr.dnsAddrs
    match sip? with
    | none => none
    | some sip =>
      match res with
      | .failure resp e => some (rec, resp, some e)
      | .success resp =>
        let mr := makeResponse resp
        let t := traceTimings ck.t0 tr
        let ent : Entry :=
          { request := mk.har
            response := mr.har
            timings := { t with receive := ck.tRecv - (tr.gotFirstByte.getD ck.t0) }
            time := ck.tTime - ck.tStart
            start := formatRFC3339Nano ck.tStart
            serverIP := sip }
        some (rec.appendEntry ent, some mr.resp, mr.err)

/-! ## Server-side ServeHTTP and HARResponseWriter (server.go) -/

/-- Embedding of `HARResponseWriter` (server.go): the in-memory capture
surface handed to the wrapped handler. -/
structure HARResponseWriter where
  body : List Char := []
  statusCode : Int := 0
  header : Values := []
  didWriteHeaders : Bool := false
deriving DecidableEq, Repr, Inhabited

/-- `HARResponseWriter.WriteHeader`. -/
def HARResponseWriter.writeHeader (w : HARResponseWriter) (statusCode : Int) :
    HARResponseWriter :=
  { w with statusCode := statusCode, didWriteHeaders := true }

/-- `HARResponseWriter.Write`: defaults the status to 200 on the first body
write, then appends to the buffer; returns the byte count written. -/
def HARResponseWriter.write (w : HARResponseWriter) (b : List Char) :
    HARResponseWriter × Nat :=
  let w := if !w.didWriteHeaders then w.writeHeader 200 else w
  ({ w with body := w.body ++ b }, b.length)

/-- `HARResponseWriter.Header`: the lazily-allocated map is the model's list,
so this is the identity accessor. Handlers add values with
`http.Header.Add`, modelled by `mapAppend`. -/
def HARResponseWriter.headerAdd (w : HARResponseWriter) (k v : String) :
    HARResponseWriter :=
  { w with header := mapAppend w.header k v }

/-- `HARResponseWriter.AsResponse`: wraps the captured status, headers and
body into an `http.Response` (`Set-Cookie` parsing by `Response.Cookies()` is
not modelled, so `cookies` is empty). -/
def HARResponseWriter.asResponse (w : HARResponseWriter) (req : HttpRequest) :
    HttpResponse :=
  { statusCode := w.statusCode, proto := req.proto, header := w.header,
    cookies := [], body := { data := w.body, pos := 0, readErr := false } }

/-- Model of the real `http.ResponseWriter` the server hands to ServeHTTP. -/
structure ResponseWriter where
  header : Values := []
  statusCode : Int := 0
  body : List Char := []
deriving DecidableEq, Repr, Inhabited

/-- The header-copy loop of ServeHTTP:
`for h, vals := range responseWrapper.header { for _, val := range vals {
w.Header().Set(h, val) } }` — note `Set`, not `Add`. -/
def copyHeaderList (dst : Values) (src : Values) : Values :=
  src.foldl (fun acc p => p.2.foldl (fun a v => setValue a p.1 v) acc) dst

/-- A wrapped handler: a function writing a response for a request onto the
capture surface (its only interaction with the recorder). -/
abbrev Handler := HARResponseWriter → HttpRequest → HARResponseWriter

/-- Embedding of `Recorder.ServeHTTP` (server.go): capture the request
(errors are only logged), run the wrapped handler against the capture
surface between the two clock readings, replay status/headers/body to the
real writer, capture the response (errors are only logged), and append the
Entry. -/
def Recorder.serveHTTP (rec : Recorder) (w : ResponseWriter) (req : HttpRequest)
    (handler : Handler) (tStart tEnd : Int) : Recorder × ResponseWriter :=
  let mk := makeRequest req
  let rw := handler {} mk.req
  let w := { w with header := copyHeaderList w.header rw.header }
  let w := { w with statusCode := rw.statusCode }
  let w := { w with body := w.body ++ rw.body }
  let mr := makeResponse (rw.asResponse mk.req)
  let ent : Entry :=
    { request := mk.har
      response := mr.har
      time := tEnd - tStart
      start := formatRFC3339Nano tStart
      timings := { send := -1, receive := -1 } }
  (rec.appendEntry ent, w)

/-! ## Lock scope (harhar.go lines 49-52, server.go lines 314-316)

Both interception modes start with `c.mu.Lock(); defer c.mu.Unlock()`, so
the mutex is held from method entry to method return. The control-flow
skeletons below record, in program order, the steps each method performs and
where the lock and unlock sit. -/

/-- The observable steps of one interception call. -/
inductive RecorderStep where
  | lock
  | unlock
  | captureRequest
  | armTrace
  | wrappedCall
  | replayResponse
  | captureResponse
  | appendEntry
deriving DecidableEq, Repr, Inhabited

/-- Control-flow skeleton of `Recorder.RoundTrip` on its recording path:
Lock on entry; capture the request; install the trace; call the wrapped
transport; capture the response; append; deferred Unlock on return. -/
def roundTripSteps : List RecorderStep :=
  [.lock, .captureRequest, .armTrace, .wrappedCall, .captureResponse,
   .appendEntry, .unlock]

/-- Control-flow skeleton of `Recorder.ServeHTTP`: Lock on entry; capture the
request; call the wrapped handler; replay to the real writer; capture the
response; append; deferred Unlock on return. -/
def serveHTTPSteps : List RecorderStep :=
  [.lock, .captureRequest, .wrappedCall, .replayResponse, .captureResponse,
   .appendEntry, .unlock]

/-- The steps executed while the mutex is held: those strictly between the
Lock and the Unlock. -/
def criticalSection (steps : List RecorderStep) : List RecorderStep :=
  ((steps.dropWhile (fun s => s ≠ .lock)).drop 1).takeWhile (fun s => s ≠ .unlock)

/-! ## Claim-level definitions -/

/-- Formalisation of the claim's notion for C2: the sum of the Timings
fields that were actually measured, with the sentinel value -1 marking an
unmeasured phase that contributes nothing. -/
def specMeasuredTimingsSum (t : Timings) : Int :=
  [t.send, t.wait, t.receive, t.blocked, t.dns, t.connect, t.ssl].foldl
    (fun acc x => if x = -1 then acc else acc + x) 0

/-! ## Concrete instances used by witnesses and counterexamples -/

/-- A form request with body `a=1&b=2` and the urlencoded content type. -/
def wReqForm (m : String) : HttpRequest :=
  { method := m, url := { str := "http://example.com/" }, proto := "HTTP/1.1",
    header := [("Content-Type", ["application/x-www-form-urlencoded"])],
    body := some { data := "a=1&b=2".toList } }

/-- A POST form request whose body holds an invalid percent escape: form
decoding fails after the body has been drained. -/
def wReqBadForm : HttpRequest :=
  { method := "POST", url := { str := "http://example.com/" }, proto := "HTTP/1.1",
    header := [("Content-Type", ["application/x-www-form-urlencoded"])],
    body := some { data := "a=%zz".toList } }

/-- A GET request with no body stream. -/
def wReqNil : HttpRequest :=
  { method := "GET", url := { str := "http://example.com/" }, proto := "HTTP/1.1" }

/-- A POST request with a plain-text body. -/
def wReqPlain : HttpRequest :=
  { method := "POST", url := { str := "http://example.com/" }, proto := "HTTP/1.1",
    header := [("Content-Type", ["text/plain"])],
    body := some { data := "hi".toList } }

/-- A request whose body stream is unreadable (io.ReadAll fails on it). -/
def wReqBadBody : HttpRequest :=
  { method := "GET", url := { str := "http://example.com/" }, proto := "HTTP/1.1",
    body := some { data := ['x'], readErr := true } }

/-- A plain 200 response. -/
def wRespOK : HttpResponse :=
  { statusCode := 200, proto := "HTTP/1.1",
    header := [("Content-Type", ["text/plain"])],
    body := { data := "world".toList } }

/-- A response whose body stream is unreadable. -/
def wRespBad : HttpResponse :=
  { statusCode := 200, proto := "HTTP/1.1", header := [],
    body := { data := ['w'], readErr := true } }

/-- A handler that writes a five-byte body and nothing else. -/
def wHandlerHello : Handler := fun rw _ => (rw.write "hello".toList).1

/-- A handler that adds two values for one header name, then writes a body. -/
def wHandlerMulti : Handler := fun rw _ =>
  (((rw.headerAdd "X-Multi" "a").headerAdd "X-Multi" "b").write "hi".toList).1

/-- A fresh recorder with an empty log. -/
def wRec : Recorder := {}

/-- A fresh real response writer. -/
def wWriter : ResponseWriter := {}

/-- A zero clock. -/
def wClock : RoundTripClock := {}

/-- A trace run in which no callback fired (fully reused connection). -/
def wTrace : ClientTraceRun := {}

/-! ## Claims -/

/-- Claim C3, counterexample. The claim states that the mutual-exclusion
lock guards only the append step and that the wrapped network call is not
under the lock. In both `RoundTrip` and `ServeHTTP` the critical section
(everything between `c.mu.Lock()` and the deferred `c.mu.Unlock()`) is the
entire method body, and in particular contains the wrapped call. -/
theorem c3_lock_counterexample :
    criticalSection roundTripSteps ≠ [RecorderStep.appendEntry] ∧
    RecorderStep.wrappedCall ∈ criticalSection roundTripSteps ∧
    criticalSection serveHTTPSteps ≠ [RecorderStep.appendEntry] ∧
    RecorderStep.wrappedCall ∈ criticalSection serveHTTPSteps := by
  decide

/-- Claim C3, amended: in both interception modes the lock is acquired on
method entry and released on return, so the critical section spans the whole
transaction — request capture, the wrapped transport/handler call, response
capture and the append — and two concurrent transactions through one
Recorder are fully serialized, including the wrapped network call. -/
theorem c3_lock_scope :
    criticalSection roundTripSteps =
      [RecorderStep.captureRequest, RecorderStep.armTrace,
       RecorderStep.wrappedCall, RecorderStep.captureResponse,
       RecorderStep.appendEntry] ∧
    criticalSection serveHTTPSteps =
      [RecorderStep.captureRequest, RecorderStep.wrappedCall,
       RecorderStep.replayResponse, RecorderStep.captureResponse,
       RecorderStep.appendEntry] := by
  decide

/-- Claim C10: the DNSDone callback sets ServerIP to the string form of the
first resolved address; the unguarded index `dnsInfo.Addrs[0]` is
well-defined exactly on non-empty result lists, and on the empty list the
access is out of bounds (modelled as `none`, the panic). -/
theorem c10_dns_first_addr :
    (∀ (a : String) (t : List String), dnsDoneServerIP (a :: t) = some a) ∧
    dnsDoneServerIP [] = none := by
  constructor
  · intro a t; simp [dnsDoneServerIP]
  · rfl

/-- Claim C2 (code bug), evaluation at the failing input: a server-side
transaction through `ServeHTTP` whose handler writes a body while 5 ms of
wall-clock time elapse. The appended Entry carries `Time = 5`, but the sum
of its non-sentinel Timings fields (send and receive hold the sentinel -1,
every other phase holds 0) is 0, contradicting the claimed invariant
`Time = SUM(Timings.*)` that structs.go documents on the Time field. -/
theorem c2_time_sum_eval :
    ((Recorder.serveHTTP wRec wWriter wReqNil wHandlerHello 0 5).1).har.log.entries.map
        (fun e => (e.time, specMeasuredTimingsSum e.timings)) = [(5, 0)] ∧
    (5 : Int) ≠ 0 := by
  decide

/-- Claim C6, counterexample. The claim covers every captured request with
the urlencoded content type and body `a=1&b=2`, but Go's `ParseForm` only
reads the request body for POST, PUT and PATCH: for a GET request with that
exact content type and body, capture succeeds with no Param entries at all
(and empty raw text), not the two claimed entries. -/
theorem c6_form_counterexample :
    (makeRequest (wReqForm "GET")).err = none ∧
    (makeRequest (wReqForm "GET")).har.body.params = [] ∧
    (makeRequest (wReqForm "GET")).har.body.content = "" := by
  decide

/-- Claim C6, amended: for every captured request (a fresh request — PostForm
still nil — whose capture succeeds) with declared content type exactly
application/x-www-form-urlencoded and body `a=1&b=2`: when the method is
POST, PUT or PATCH the Body holds exactly the Param entries (a,1) and (b,2)
(in the model's map-iteration order) and the raw text content is empty; for
every other method Go's ParseForm does not read the body, so Params and the
raw text are both empty. (Capture can still fail on such a request when the
URL's raw query is malformed, since ParseForm also parses it; that case
falls outside "captured".) -/
theorem c6_form_amended (hr : HttpRequest)
    (hct : headerGet hr.header "Content-Type" = "application/x-www-form-urlencoded")
    (hb : hr.body = some { data := "a=1&b=2".toList, pos := 0, readErr := false })
    (hpf : hr.postForm = none)
    (he : (makeRequest hr).err = none) :
    ((hr.method = "POST" ∨ hr.method = "PUT" ∨ hr.method = "PATCH") →
       (makeRequest hr).har.body.params = [⟨"a", "1", "", ""⟩, ⟨"b", "2", "", ""⟩] ∧
       (makeRequest hr).har.body.content = "") ∧
    (¬(hr.method = "POST" ∨ hr.method = "PUT" ∨ hr.method = "PATCH") →
       (makeRequest hr).har.body.params = [] ∧
       (makeRequest hr).har.body.content = "") := by
  have hpq : parseQuery ['a', '=', '1', '&', 'b', '=', '2'] =
      ([("a", ["1"]), ("b", ["2"])], none) := by decide
  have hpm : (parseMediaType "application/x-www-form-urlencoded").1
      = "application/x-www-form-urlencoded" := by decide
  constructor
  · intro hm
    simp only [makeRequest, hb, BodyStream.readAll] at he ⊢
    simp [hct] at he ⊢
    have hstep : parseForm { hr with body := some ⟨['a', '=', '1', '&', 'b', '=', '2'], 0, false⟩ } = ({ hr with body := some ⟨['a', '=', '1', '&', 'b', '=', '2'], 7, false⟩, postForm := some [("a", ["1"]), ("b", ["2"])] }, (parseQuery hr.url.rawQuery.data).2) := by
      rcases hm with hm | hm | hm <;>
        simp [parseForm, hpf, hm, hct, hpm, hpq, BodyStream.readAll]
    rw [hstep] at he ⊢
    rcases he2 : (parseQuery hr.url.rawQuery.data).2 with _ | e
    · exact ⟨rfl, rfl⟩
    · rw [he2] at he
      exact Option.noConfusion he
  · intro hm
    simp only [makeRequest, hb, BodyStream.readAll] at he ⊢
    simp [hct] at he ⊢
    have hstep : parseForm { hr with body := some ⟨['a', '=', '1', '&', 'b', '=', '2'], 0, false⟩ } = ({ hr with body := some ⟨['a', '=', '1', '&', 'b', '=', '2'], 0, false⟩, postForm := some [] }, (parseQuery hr.url.rawQuery.data).2) := by
      simp [parseForm, hpf, hm]
    rw [hstep] at he ⊢
    rcases he2 : (parseQuery hr.url.rawQuery.data).2 with _ | e
    · exact ⟨rfl, rfl⟩
    · rw [he2] at he
      exact Option.noConfusion he

/-- Witness for the amended C6 at the concrete POST form request. -/
theorem c6_form_amended_witness :
    (((wReqForm "POST").method = "POST" ∨ (wReqForm "POST").method = "PUT" ∨
        (wReqForm "POST").method = "PATCH") →
       (makeRequest (wReqForm "POST")).har.body.params =
         [⟨"a", "1", "", ""⟩, ⟨"b", "2", "", ""⟩] ∧
       (makeRequest (wReqForm "POST")).har.body.content = "") ∧
    (¬((wReqForm "POST").method = "POST" ∨ (wReqForm "POST").method = "PUT" ∨
        (wReqForm "POST").method = "PATCH") →
       (makeRequest (wReqForm "POST")).har.body.params = [] ∧
       (makeRequest (wReqForm "POST")).har.body.content = "") :=
  c6_form_amended (wReqForm "POST") (by decide) rfl rfl (by decide)

/-- Claim C7, counterexample. The claim includes the nil-body request in the
octet-stream default, but `makeRequest` returns before the MIME-type default
is applied when the body is nil: the captured Body's MIME type is the empty
string, not application/octet-stream. -/
theorem c7_mime_counterexample :
    (makeRequest wReqNil).err = none ∧
    (makeRequest wReqNil).har.body.mimeType = "" := by
  decide

/-- Claim C5, counterexample. The claim states that a capture failure aborts
recording with no Entry appended in both modes; but server-side `ServeHTTP`
only logs the failure: for a request whose body stream is unreadable
(request capture fails with a read error), the Entry is appended anyway. -/
theorem c5_capture_failure_counterexample :
    (makeRequest wReqBadBody).err = some GoError.readError ∧
    ((Recorder.serveHTTP wRec wWriter wReqBadBody wHandlerHello 0 5).1).har.log.entries.length
      = 1 := by
  decide

/-- Claim C9, counterexample. The claim states that ServeHTTP replays every
header value, duplicates preserved; but the replay loop uses
`w.Header().Set` for each value, so of a two-valued header written by the
handler only the last value reaches the real writer. -/
theorem c9_replay_counterexample :
    (wHandlerMulti {} (makeRequest wReqNil).req).header = [("X-Multi", ["a", "b"])] ∧
    ((Recorder.serveHTTP wRec wWriter wReqNil wHandlerMulti 0 5).2).header
      = [("X-Multi", ["b"])] := by
  decide

/-- Claim C8: for every captured request whose body stream is absent (nil),
makeRequest succeeds without error, records BodySize as 0, and leaves the
Body's raw text content and Params empty. -/
theorem c8_nil_body (hr : HttpRequest) (hb : hr.body = none) :
    (makeRequest hr).err = none ∧
    (makeRequest hr).har.bodySize = 0 ∧
    (makeRequest hr).har.body.content = "" ∧
    (makeRequest hr).har.body.params = [] := by
  simp [makeRequest, hb]

/-- Witness for C8 at the concrete nil-body GET request. -/
theorem c8_nil_body_witness :
    (makeRequest wReqNil).err = none ∧
    (makeRequest wReqNil).har.bodySize = 0 ∧
    (makeRequest wReqNil).har.body.content = "" ∧
    (makeRequest wReqNil).har.body.params = [] :=
  c8_nil_body wReqNil rfl

/-- Claim C5, amended: recording is aborted with no Entry appended only in
client-side RoundTrip when capturing the request fails (the capture error is
returned with a nil response and the log is unchanged). When the request
capture succeeds and the wrapped transport returns a response, RoundTrip
appends exactly one Entry and hands the caller whatever error makeResponse
produced — so a response-capture failure still appends the Entry and returns
the error. Server-side ServeHTTP appends an Entry on every call, capture
failures included, after only logging them. -/
theorem c5_capture_failure_amended :
    (∀ (rec : Recorder) (req : HttpRequest) (ck : RoundTripClock)
        (tr : ClientTraceRun) (res : TransportResult),
        (makeRequest req).err.isSome = true →
        Recorder.roundTrip rec req ck tr res = some (rec, none, (makeRequest req).err)) ∧
    (∀ (rec : Recorder) (req : HttpRequest) (ck : RoundTripClock)
        (tr : ClientTraceRun) (resp : HttpResponse),
        (makeRequest req).err = none →
        (tr.dnsDone.isSome = true → tr.dnsAddrs ≠ []) →
        (Recorder.roundTrip rec req ck tr (.success resp)).map
            (fun out => (out.1.har.log.entries.length, out.2.2))
          = some (rec.har.log.entries.length + 1, (makeResponse resp).err)) ∧
    (∀ (rec : Recorder) (w : ResponseWriter) (req : HttpRequest) (handler : Handler)
        (t0 t1 : Int),
        ((Recorder.serveHTTP rec w req handler t0 t1).1).har.log.entries.length
          = rec.har.log.entries.length + 1) := by
  refine ⟨?_, ?_, ?_⟩
  · intro rec req ck tr res h
    obtain ⟨e, he⟩ := Option.isSome_iff_exists.mp h
    simp [Recorder.roundTrip, he]
  · intro rec req ck tr resp h1 h2
    rcases hd : tr.dnsDone with _ | t
    · simp [Recorder.roundTrip, h1, hd, Recorder.appendEntry]
    · have hne := h2 (by simp [hd])
      rcases ha : tr.dnsAddrs with _ | ⟨a, as⟩
      · exact absurd ha hne
      · simp [Recorder.roundTrip, h1, hd, ha, dnsDoneServerIP, Recorder.appendEntry]
  · intro rec w req handler t0 t1
    simp [Recorder.serveHTTP, Recorder.appendEntry]

/-- Witness for the amended C5: an unreadable request body aborts RoundTrip
without touching the log; an unreadable response body still appends one
Entry and returns makeResponse's error; and ServeHTTP appends despite the
failed request capture. -/
theorem c5_capture_failure_witness :
    Recorder.roundTrip wRec wReqBadBody wClock wTrace (TransportResult.success wRespOK)
        = some (wRec, none, (makeRequest wReqBadBody).err) ∧
    (Recorder.roundTrip wRec wReqNil wClock wTrace (TransportResult.success wRespBad)).map
        (fun out => (out.1.har.log.entries.length, out.2.2))
      = some (wRec.har.log.entries.length + 1, (makeResponse wRespBad).err) ∧
    ((Recorder.serveHTTP wRec wWriter wReqBadBody wHandlerHello 0 5).1).har.log.entries.length
        = wRec.har.log.entries.length + 1 :=
  ⟨c5_capture_failure_amended.1 wRec wReqBadBody wClock wTrace _ (by decide),
   c5_capture_failure_amended.2.1 wRec wReqNil wClock wTrace wRespBad (by decide) (by decide),
   c5_capture_failure_amended.2.2 wRec wWriter wReqBadBody wHandlerHello 0 5⟩

/-- Claim C4: when the wrapped transport returns an error, RoundTrip appends
no Entry (the recorder, hence the log's entry sequence, is unchanged) and
returns the transport's response and error values unchanged. The request
capture must have succeeded for the wrapped call to be reached, and the
DNSDone callback must not have fired with an empty address list (that access
panics, claim C10). -/
theorem c4_transport_error (rec : Recorder) (req : HttpRequest) (ck : RoundTripClock)
    (tr : ClientTraceRun) (resp : Option HttpResponse) (e : GoError)
    (h1 : (makeRequest req).err = none)
    (h2 : tr.dnsDone.isSome = true → tr.dnsAddrs ≠ []) :
    Recorder.roundTrip rec req ck tr (.failure resp e) = some (rec, resp, some e) := by
  rcases hd : tr.dnsDone with _ | t
  · simp [Recorder.roundTrip, h1, hd]
  · have hne := h2 (by simp [hd])
    rcases ha : tr.dnsAddrs with _ | ⟨a, as⟩
    · exact absurd ha hne
    · simp [Recorder.roundTrip, h1, hd, ha, dnsDoneServerIP]

/-- Witness for C4 at a concrete failing transport call. -/
theorem c4_transport_error_witness :
    Recorder.roundTrip wRec wReqNil wClock wTrace
        (TransportResult.failure none GoError.readError)
      = some (wRec, none, some GoError.readError) :=
  c4_transport_error wRec wReqNil wClock wTrace none GoError.readError
    (by decide) (by decide)

/-- Claim C7, amended: for every captured request with a non-nil readable
body and every captured response with a readable body, the recorded Body's
MIME type is non-empty: it is the declared Content-Type, or the fixed
placeholder application/octet-stream when no type is declared. (A nil-body
request, excluded here, leaves the MIME type empty — see the
counterexample.) -/
theorem c7_mime_amended (hr : HttpRequest) (bs : BodyStream) (resp : HttpResponse)
    (hb : hr.body = some bs) (h1 : bs.readErr = false) (h2 : resp.body.readErr = false) :
    ((makeRequest hr).har.body.mimeType ≠ "" ∧
     (makeRequest hr).har.body.mimeType =
       (if headerGet hr.header "Content-Type" = "" then "application/octet-stream"
        else headerGet hr.header "Content-Type")) ∧
    ((makeResponse resp).har.body.mimeType ≠ "" ∧
     (makeResponse resp).har.body.mimeType =
       (if headerGet resp.header "Content-Type" = "" then "application/octet-stream"
        else headerGet resp.header "Content-Type")) := by
  have hreq : (makeRequest hr).har.body.mimeType =
      (if headerGet hr.header "Content-Type" = "" then "application/octet-stream"
       else headerGet hr.header "Content-Type") := by
    simp only [makeRequest, hb, BodyStream.readAll, h1, Bool.false_eq_true, if_false]
    (repeat' split) <;> simp_all
  have hresp : (makeResponse resp).har.body.mimeType =
      (if headerGet resp.header "Content-Type" = "" then "application/octet-stream"
       else headerGet resp.header "Content-Type") := by
    simp [makeResponse, BodyStream.readAll, h2]
  refine ⟨⟨?_, hreq⟩, ?_, hresp⟩
  · rw [hreq]
    by_cases hc : headerGet hr.header "Content-Type" = "" <;> simp [hc]
  · rw [hresp]
    by_cases hc : headerGet resp.header "Content-Type" = "" <;> simp [hc]

/-- Helper: a successful `io.ReadAll` yields the bytes from the current
position, the fully-consumed stream, and certifies the stream was readable. -/
theorem readAll_ok (bs : BodyStream) (data : List Char) (bs2 : BodyStream)
    (h : bs.readAll = Except.ok (data, bs2)) :
    data = bs.data.drop bs.pos ∧ bs2 = { bs with pos := bs.data.length } ∧
    bs.readErr = false := by
  unfold BodyStream.readAll at h
  by_cases hre : bs.readErr
  · rw [if_pos hre] at h
    exact absurd h (by simp)
  · rw [if_neg hre] at h
    simp only [Except.ok.injEq, Prod.mk.injEq] at h
    exact ⟨h.1.symm, h.2.symm, by simpa using hre⟩

/-- Helper: `ParseForm` only ever reads the body stream forward (or leaves
it alone): the request it returns carries a stream over the same bytes with
the same readability. -/
theorem parseForm_body (hr : HttpRequest) (bs : BodyStream) (hb : hr.body = some bs) :
    ∃ p, (parseForm hr).1.body = some { data := bs.data, pos := p, readErr := bs.readErr } := by
  rcases hra : BodyStream.readAll bs with e | pr
  · simp only [parseForm, hb, hra]
    repeat' split
    all_goals first
      | exact ⟨bs.pos, hb⟩
      | exact ⟨bs.pos, rfl⟩
  · obtain ⟨hd2, hb2, hre2⟩ := readAll_ok _ _ _ hra
    simp only [parseForm, hb, hra]
    repeat' split
    all_goals first
      | exact ⟨bs.pos, hb⟩
      | exact ⟨bs.pos, rfl⟩
      | exact ⟨bs.data.length, by rw [hb2]⟩

/-- Helper: `ParseMultipartForm` likewise only reads the body stream
forward or leaves it alone. -/
theorem parseMultipartForm_body (hr : HttpRequest) (n : Nat) (bs : BodyStream)
    (hb : hr.body = some bs) :
    ∃ p, (parseMultipartForm hr n).1.body
      = some { data := bs.data, pos := p, readErr := bs.readErr } := by
  obtain ⟨p1, hp1⟩ := parseForm_body hr bs hb
  rcases hra : BodyStream.readAll { data := bs.data, pos := p1, readErr := bs.readErr }
      with e | pr
  · simp only [parseMultipartForm, hp1, hra]
    repeat' split
    all_goals exact ⟨p1, hp1⟩
  · obtain ⟨hd2, hb2, hre2⟩ := readAll_ok _ _ _ hra
    simp only [parseMultipartForm, hp1, hra]
    repeat' split
    all_goals first
      | exact ⟨p1, hp1⟩
      | exact ⟨p1, rfl⟩
      | exact ⟨bs.data.length, by rw [hb2]⟩

/-- Claim C1, counterexample. The claim asserts unconditional restorability,
but both form-parsing branches of makeRequest return the parse error before
`bodbuf.Seek(0, io.SeekStart)`: for a POST urlencoded request whose body
`a=%zz` fails percent-decoding, the capture fails after draining the body,
and the replacement stream handed back to the caller is exhausted — it
yields nothing, while the original stream would have yielded the full body. -/
theorem c1_capture_counterexample :
    (makeRequest wReqBadForm).err.isSome = true ∧
    (makeRequest wReqBadForm).req.body =
      some { data := "a=%zz".toList, pos := "a=%zz".toList.length, readErr := false } ∧
    BodyStream.remaining
      { data := "a=%zz".toList, pos := "a=%zz".toList.length, readErr := false } = [] ∧
    wReqBadForm.body = some { data := "a=%zz".toList } ∧
    BodyStream.remaining { data := "a=%zz".toList } = "a=%zz".toList := by
  decide

/-- Claim C1, amended: for every request with a non-nil body and every
response on which capture succeeds, the body stream handed back to the real
caller after capture yields exactly the byte sequence the original stream
would have yielded: the bytes are drained, the stream is replaced by a fresh
reader over the captured bytes, and the form-parsing branches rewind that
reader to the start before returning. (When form parsing fails, makeRequest
returns before the rewind and the replacement stream can be left exhausted —
see the counterexample.) -/
theorem c1_capture_restores_body (hr : HttpRequest) (bs : BodyStream) (resp : HttpResponse)
    (hb : hr.body = some bs)
    (h1 : (makeRequest hr).err = none)
    (h2 : (makeResponse resp).err = none) :
    (∃ bs2, (makeRequest hr).req.body = some bs2 ∧ bs2.remaining = bs.remaining) ∧
    (makeResponse resp).resp.body.remaining = resp.body.remaining := by
  constructor
  · by_cases hre : bs.readErr
    · exfalso
      simp [makeRequest, hb, BodyStream.readAll, hre] at h1
    · simp only [Bool.not_eq_true] at hre
      simp only [makeRequest, hb, BodyStream.readAll, hre, Bool.false_eq_true, if_false] at h1 ⊢
      by_cases hct : headerGet hr.header "Content-Type" = ""
      · -- no declared type: octet-stream default, raw-content branch
        simp_all [BodyStream.remaining]
      · by_cases hform : headerGet hr.header "Content-Type" = "form-data" ∨
            headerGet hr.header "Content-Type" = "multipart/form-data"
        · -- multipart branch: on success the reader is rewound after parsing
          simp only [if_neg hct] at h1 ⊢
          rw [if_pos hform] at h1 ⊢
          rcases hpr : parseMultipartForm
              { hr with body := some ⟨List.drop bs.pos bs.data, 0, false⟩ }
              (32 * 1048576) with ⟨hr2, e?⟩
          rcases e? with _ | e
          · obtain ⟨p, hp⟩ := parseMultipartForm_body
              { hr with body := some ⟨List.drop bs.pos bs.data, 0, false⟩ } (32 * 1048576)
              ⟨List.drop bs.pos bs.data, 0, false⟩ rfl
            rw [hpr] at hp
            have hp2 : hr2.body = some ⟨List.drop bs.pos bs.data, p, false⟩ := hp
            simp only [hpr]
            exact ⟨⟨List.drop bs.pos bs.data, 0, false⟩,
              by simp [hp2, BodyStream.seekStart], by simp [BodyStream.remaining]⟩
          · rw [hpr] at h1
            simp at h1
        · by_cases hue : headerGet hr.header "Content-Type" =
              "application/x-www-form-urlencoded"
          · -- urlencoded branch: ParseForm then Seek(0)
            simp only [if_neg hct] at h1 ⊢
            rw [if_neg hform, if_pos hue] at h1 ⊢
            rcases hpr : parseForm
                { hr with body := some ⟨List.drop bs.pos bs.data, 0, false⟩ } with ⟨hr2, e?⟩
            rcases e? with _ | e
            · obtain ⟨p, hp⟩ := parseForm_body
                { hr with body := some ⟨List.drop bs.pos bs.data, 0, false⟩ }
                ⟨List.drop bs.pos bs.data, 0, false⟩ rfl
              rw [hpr] at hp
              have hp2 : hr2.body = some ⟨List.drop bs.pos bs.data, p, false⟩ := hp
              simp only [hpr]
              exact ⟨⟨List.drop bs.pos bs.data, 0, false⟩,
                by simp [hp2, BodyStream.seekStart], by simp [BodyStream.remaining]⟩
            · rw [hpr] at h1
              simp at h1
          · -- any other declared type: raw-content branch
            simp_all [BodyStream.remaining]
  · by_cases hre : resp.body.readErr
    · exfalso
      simp [makeResponse, BodyStream.readAll, hre] at h2
    · simp only [Bool.not_eq_true] at hre
      simp [makeResponse, BodyStream.readAll, hre, BodyStream.remaining]

/-- Helper: `Header.Set` leaves entries with other keys unchanged. -/
theorem map_setValue_keep (h0 : Values) (k v : String) (hk : ∀ p ∈ h0, p.1 ≠ k) :
    h0.map (fun p => if p.1 = k then (k, [v]) else p) = h0 := by
  induction h0 with
  | nil => rfl
  | cons a t ih =>
    have ha : a.1 ≠ k := hk a (by simp)
    simp only [List.map_cons, if_neg ha, ih (fun p hp => hk p (by simp [hp]))]

/-- Helper: a key absent from a header has a false `any` test. -/
theorem any_key_eq_false (h0 : Values) (k : String) (hk : ∀ p ∈ h0, p.1 ≠ k) :
    (h0.any (fun p => p.1 = k)) = false := by
  simp only [List.any_eq_false, decide_eq_true_eq]
  exact hk

/-- Helper: `Header.Set` on an absent key appends a singleton entry. -/
theorem setValue_absent (h0 : Values) (k v : String) (hk : ∀ p ∈ h0, p.1 ≠ k) :
    setValue h0 k v = h0 ++ [(k, [v])] := by
  unfold setValue
  rw [any_key_eq_false h0 k hk]
  simp

/-- Helper: `Header.Set` on a key present only as the final entry replaces
its value list. -/
theorem setValue_last (h0 : Values) (k u v : String) (hk : ∀ p ∈ h0, p.1 ≠ k) :
    setValue (h0 ++ [(k, [u])]) k v = h0 ++ [(k, [v])] := by
  unfold setValue
  have hany : ((h0 ++ [(k, [u])]).any (fun p => p.1 = k)) = true := by simp
  rw [hany, if_pos rfl, List.map_append, map_setValue_keep h0 k v hk]
  simp

/-- Helper: repeatedly `Set`-ting one key leaves the last value. -/
theorem foldl_setValue (vs : List String) (h0 : Values) (k u : String)
    (hk : ∀ p ∈ h0, p.1 ≠ k) :
    vs.foldl (fun a v => setValue a k v) (h0 ++ [(k, [u])]) = h0 ++ [(k, [vs.getLastD u])] := by
  induction vs generalizing u with
  | nil => simp
  | cons v vs ih =>
    rw [List.foldl_cons, setValue_last h0 k u v hk, ih v, List.getLastD_cons]

/-- Helper: the ServeHTTP header-replay loop collapses each name of the
captured header set to its last value. -/
theorem copyHeaderList_collapse (src : Values) : ∀ (dst : Values),
    (src.map Prod.fst).Nodup →
    (∀ p ∈ src, ∀ q ∈ dst, q.1 ≠ p.1) →
    copyHeaderList dst src =
      dst ++ src.filterMap (fun p => (p.2.getLast?).map (fun v => (p.1, [v]))) := by
  induction src with
  | nil =>
    intro dst _ _
    simp [copyHeaderList]
  | cons a t ih =>
    intro dst hnd hdisj
    obtain ⟨k, vs⟩ := a
    have hnd' : (t.map Prod.fst).Nodup := hnd.of_cons
    have hknot : k ∉ t.map Prod.fst := (List.nodup_cons.mp hnd).1
    have hkdst : ∀ p ∈ dst, p.1 ≠ k := fun p hp =>
      hdisj (k, vs) (by simp) p hp
    rcases vs with _ | ⟨v, vs'⟩
    · rw [show copyHeaderList dst ((k, []) :: t) = copyHeaderList dst t from rfl]
      rw [ih dst hnd' (fun p hp q hq => hdisj p (by simp [hp]) q hq)]
      simp
    · rw [show copyHeaderList dst ((k, v :: vs') :: t)
          = copyHeaderList ((v :: vs').foldl (fun a x => setValue a k x) dst) t from rfl]
      rw [List.foldl_cons, setValue_absent dst k v hkdst, foldl_setValue vs' dst k v hkdst]
      have hdisj' : ∀ p ∈ t, ∀ q ∈ dst ++ [(k, [vs'.getLastD v])], q.1 ≠ p.1 := by
        intro p hp q hq
        rcases List.mem_append.mp hq with hq | hq
        · exact hdisj p (by simp [hp]) q hq
        · simp only [List.mem_singleton] at hq
          subst hq
          intro hkp
          refine hknot ?_
          rw [show k = p.1 from hkp]
          exact List.mem_map_of_mem Prod.fst hp
      rw [ih (dst ++ [(k, [vs'.getLastD v])]) hnd' hdisj']
      simp only [List.filterMap_cons, List.getLast?_cons, List.getLastD_eq_getLast?,
        Option.map_some']
      rw [List.append_assoc]
      simp [List.getLastD_eq_getLast?]

/-- Claim C9, amended: ServeHTTP replays to the real response writer
exactly the status code and the body bytes the wrapped handler wrote, but
for headers each name is replayed with only a single value — the last one
in iteration order — because the copy loop uses Header().Set instead of
Add; multi-valued headers are collapsed. (Stated for a fresh real writer
and a captured header set without duplicate names, which is what the
header map guarantees.) -/
theorem c9_replay_amended (rec : Recorder) (w : ResponseWriter) (req : HttpRequest)
    (handler : Handler) (t0 t1 : Int)
    (hnd : (((handler {} (makeRequest req).req).header).map Prod.fst).Nodup)
    (hw : w.header = []) :
    ((Recorder.serveHTTP rec w req handler t0 t1).2).statusCode
        = (handler {} (makeRequest req).req).statusCode ∧
    ((Recorder.serveHTTP rec w req handler t0 t1).2).body
        = w.body ++ (handler {} (makeRequest req).req).body ∧
    ((Recorder.serveHTTP rec w req handler t0 t1).2).header
        = (handler {} (makeRequest req).req).header.filterMap
            (fun p => (p.2.getLast?).map (fun v => (p.1, [v]))) := by
  refine ⟨rfl, rfl, ?_⟩
  show copyHeaderList w.header (handler {} (makeRequest req).req).header = _
  rw [hw, copyHeaderList_collapse _ [] hnd (by simp)]
  simp

/-- Witness for C1 at a concrete plain-text request and response. -/
theorem c1_capture_restores_body_witness :
    (∃ bs2, (makeRequest wReqPlain).req.body = some bs2 ∧
        bs2.remaining = BodyStream.remaining { data := "hi".toList } ) ∧
    (makeResponse wRespOK).resp.body.remaining = wRespOK.body.remaining :=
  c1_capture_restores_body wReqPlain { data := "hi".toList } wRespOK rfl
    (by decide) (by decide)

/-- Witness for the amended C7 at a concrete request and response. -/
theorem c7_mime_amended_witness :
    ((makeRequest wReqPlain).har.body.mimeType ≠ "" ∧
     (makeRequest wReqPlain).har.body.mimeType =
       (if headerGet wReqPlain.header "Content-Type" = "" then "application/octet-stream"
        else headerGet wReqPlain.header "Content-Type")) ∧
    ((makeResponse wRespOK).har.body.mimeType ≠ "" ∧
     (makeResponse wRespOK).har.body.mimeType =
       (if headerGet wRespOK.header "Content-Type" = "" then "application/octet-stream"
        else headerGet wRespOK.header "Content-Type")) :=
  c7_mime_amended wReqPlain { data := "hi".toList } wRespOK rfl rfl rfl

/-- Witness for the amended C9 at the two-valued-header handler. -/
theorem c9_replay_amended_witness :
    ((Recorder.serveHTTP wRec wWriter wReqNil wHandlerMulti 0 5).2).statusCode
        = (wHandlerMulti {} (makeRequest wReqNil).req).statusCode ∧
    ((Recorder.serveHTTP wRec wWriter wReqNil wHandlerMulti 0 5).2).body
        = wWriter.body ++ (wHandlerMulti {} (makeRequest wReqNil).req).body ∧
    ((Recorder.serveHTTP wRec wWriter wReqNil wHandlerMulti 0 5).2).header
        = (wHandlerMulti {} (makeRequest wReqNil).req).header.filterMap
            (fun p => (p.2.getLast?).map (fun v => (p.1, [v]))) :=
  c9_replay_amended wRec wWriter wReqNil wHandlerMulti 0 5 (by decide) rfl

end Harhar
